import Mathlib

/-
Verification of the Zendaya assistant's input-understanding and dispatch
pipeline.  The Python sources are shallowly embedded: strings are `List Char`
(ASCII semantics for `str.lower`, `str.strip`, `\s`, `\w`), Python floats are
modelled as rationals, and the handful of regexes used by the parsers are
translated into explicit, executable recognizers.  OS side effects
(subprocess, file removal, audio playback) are represented by descriptor
values, and external collaborators (HTTP APIs, the generative model, the
offline store) are passed in as explicit outcome parameters.
-/

namespace Zendaya

/-! ## Character-level primitives (Python `str` semantics, ASCII) -/

/-- Python `\s` / `str.strip` whitespace, restricted to ASCII. -/
def isWS (c : Char) : Bool :=
  c = ' ' || c = '\t' || c = '\n' || c = '\r' || c = '\x0b' || c = '\x0c'

/-- Python regex `\w` word character (ASCII): letters, digits, underscore. -/
def isWordChar (c : Char) : Bool := c.isAlphanum || c = '_'

/-- Python `str.lower` on ASCII text. -/
def lowerL (s : List Char) : List Char := s.map Char.toLower

/-- Python `str.strip`: drop leading and trailing whitespace. -/
def stripL (s : List Char) : List Char :=
  ((s.dropWhile isWS).reverse.dropWhile isWS).reverse

/-- The characters of a string literal. -/
def w (s : String) : List Char := s.data

/-- Python `pat in s`: `pat` occurs as a contiguous substring of `s`
(the empty pattern occurs in every string). -/
def containsSub (pat : List Char) : List Char → Bool
  | [] => pat.isPrefixOf []
  | c :: rest => pat.isPrefixOf (c :: rest) || containsSub pat rest

/-! ## Dangerous-action confirmation (backend/zendaya.py)

`queue_dangerous` stores a plain string ("shutdown", "restart", "sleep",
"lock") in the single pending-confirmation slot; `manage_file` with action
"delete" stores a dict `action = delete_file, path = ...`.  The slot is
modelled by `Pending`; the subprocess/`os.remove` effect of a confirmed
execution is represented by a `DangerExec` descriptor (the source additionally
returns a fixed message string per action, and is total even when the OS call
raises, via its try/except). -/

inductive Pending
  | act (name : List Char)
  | deleteFile (path : List Char)
deriving DecidableEq

inductive DangerExec
  | shutdown
  | restart
  | sleepPc
  | lock
  | deleteFile (path : List Char)
  | unknown (name : List Char)
deriving DecidableEq

/-- Python truthiness of the stored pending value: the empty string is falsy,
a `delete_file` dict is always truthy. -/
def pendingFalsy : Pending → Bool
  | .act a => a = []
  | .deleteFile _ => false

/-- The action attempted by `confirm_dangerous` for a confirmed string-based
pending action (its if-chain over "shutdown" / "restart" / "sleep" / "lock",
with a fallthrough message for anything else). -/
def execAct (a : List Char) : DangerExec :=
  if a = w "shutdown" then .shutdown
  else if a = w "restart" then .restart
  else if a = w "sleep" then .sleepPc
  else if a = w "lock" then .lock
  else .unknown a

/-- Model of `confirm_dangerous(user_text)`: returns the attempted execution (if any)
together with the new contents of the pending-confirmation slot.  A `none`
first component corresponds to the Python function returning `None` (all of
its non-`None` returns are non-empty message strings). -/
def confirmDangerous (u : List Char) (p : Option Pending) :
    Option DangerExec × Option Pending :=
  let lt := lowerL (stripL u)
  match p with
  | none => (none, p)
  | some pa =>
    if pendingFalsy pa then (none, p)
    else if !containsSub (w "confirm") lt then (none, p)
    else
      match pa with
      | .act a =>
        if containsSub (w "confirm " ++ a) lt then (some (execAct a), none)
        else (none, p)
      | .deleteFile path =>
        if containsSub (w "delete") lt || containsSub (w "yes") lt ||
            containsSub (w "confirm") lt then
          (some (.deleteFile path), none)
        else (none, p)

/-- Model of `queue_dangerous(action)`: stores the action string in the slot. -/
def queueDangerous (a : List Char) (_p : Option Pending) : Option Pending :=
  some (.act a)

/-- Modelled from the spec: an utterance contains an explicit confirmation
phrase naming the pending action — for a queued string action `a` the phrase
"confirm a", and for a pending file deletion a phrase containing "confirm"
that also names the deletion ("delete"). -/
def namesPendingAction (u : List Char) (pa : Pending) : Bool :=
  let lt := lowerL (stripL u)
  match pa with
  | .act a => containsSub (w "confirm " ++ a) lt
  | .deleteFile _ =>
      containsSub (w "confirm") lt && containsSub (w "delete") lt

/-- The condition under which `confirm_dangerous` actually executes a pending
action: the utterance contains "confirm", and for a string-based pending
action `a` (non-empty, else the slot is falsy and ignored) it moreover
contains the phrase "confirm a"; for a pending file deletion, containing
"confirm" alone is already enough. -/
def confirmExecCond (u : List Char) (pa : Pending) : Bool :=
  let lt := lowerL (stripL u)
  match pa with
  | .act a =>
      !(a = []) && containsSub (w "confirm") lt &&
        containsSub (w "confirm " ++ a) lt
  | .deleteFile _ => containsSub (w "confirm") lt

/-! ## Regex recognizers

Each regex used by the parsers is translated into an explicit recognizer.
`litHere` consumes a literal, `wsMunch1` consumes `\s+` when the following
token cannot start with whitespace (maximal munch is then complete), and
`wsSplitMatch` consumes `\s+` with full backtracking for the cases where the
continuation can itself start with whitespace (`.+`).  `$` matches at the end
of the string or just before a final newline, and `.` matches anything except
a newline, as in Python. -/

/-- Consume an exact literal, returning the rest of the input. -/
def litHere : List Char → List Char → Option (List Char)
  | [], s => some s
  | _ :: _, [] => none
  | a :: arest, c :: crest =>
      if a = c then litHere arest crest else none

/-- A word boundary sits after a word character here: end of input or a
non-word character next. -/
def boundaryAfterOk (s : List Char) : Bool :=
  match s with
  | [] => true
  | c :: _ => !isWordChar c

/-- Consume `\s+` followed by a token that cannot start with whitespace:
maximal munch. -/
def wsMunch1 (s : List Char) : Option (List Char) :=
  match s with
  | [] => none
  | c :: rest => if isWS c then some (rest.dropWhile isWS) else none

/-- Consume `\s+` then the continuation `p`, trying every split (needed when
`p` can itself start with whitespace, e.g. `.+`). -/
def wsSplitMatch (p : List Char → Bool) : List Char → Bool
  | [] => false
  | c :: rest => isWS c && (p rest || wsSplitMatch p rest)

/-- Anchor `$` matches here: end of input, or a single final newline follows. -/
def dollarHere : List Char → Bool
  | [] => true
  | ['\n'] => true
  | _ => false

/-- The rest of the input can be absorbed by a preceding `.+` up to `$`:
all characters are non-newlines, except possibly one final newline. -/
def dollarTail : List Char → Bool
  | [] => true
  | ['\n'] => true
  | c :: rest => !(c = '\n') && dollarTail rest

/-- Pattern `(.+)$`: at least one non-newline character, then `$`. -/
def dotPlusDollar : List Char → Bool
  | [] => false
  | c :: rest => !(c = '\n') && dollarTail rest

/-- An exact literal followed by `$`. -/
def dollarLit (t r : List Char) : Bool :=
  match litHere t r with
  | some r2 => dollarHere r2
  | none => false

/-- A sequence of literal words joined by `\s+` (every word starts with a
non-whitespace character, so maximal munch is complete). -/
def phraseHere : List (List Char) → List Char → Option (List Char)
  | [], s => some s
  | [word], s => litHere word s
  | word :: rest, s =>
      match litHere word s with
      | some r =>
        match wsMunch1 r with
        | some r2 => phraseHere rest r2
        | none => none
      | none => none

/-- Driver for `re.search`: try `tryHere` at every position whose preceding
character is not a word character (the `\b` before a pattern starting with a
word character). -/
def searchB (tryHere : List Char → Bool) : Bool → List Char → Bool
  | _, [] => false
  | prevW, c :: rest =>
      (!prevW && tryHere (c :: rest)) || searchB tryHere (isWordChar c) rest

/-- Driver for `re.search` without a leading word-boundary requirement. -/
def searchNoB (tryHere : List Char → Bool) : List Char → Bool
  | [] => false
  | c :: rest => tryHere (c :: rest) || searchNoB tryHere rest

/-- One of the literal alternatives matches here, ending at a word boundary. -/
def litAltTry (alts : List (List Char)) (t : List Char) : Bool :=
  alts.any fun a =>
    match litHere a t with
    | some r => boundaryAfterOk r
    | none => false

/-- One of the alternative first words, then the fixed remaining words
(joined by `\s+`), ending at a word boundary. -/
def tryPhraseAlts (alts : List (List Char)) (rest : List (List Char))
    (t : List Char) : Bool :=
  alts.any fun a =>
    match phraseHere (a :: rest) t with
    | some r => boundaryAfterOk r
    | none => false

/-- Search for `\b(a1|...|an)\b` (alternatives may contain literal spaces,
but start and end with word characters). -/
def searchWordAlts (alts : List (List Char)) (s : List Char) : Bool :=
  searchB (litAltTry alts) false s

/-- Search for `\b(a1|..)\s+w1\s+w2..\b`. -/
def searchPhraseAlts (alts : List (List Char)) (rest : List (List Char))
    (s : List Char) : Bool :=
  searchB (tryPhraseAlts alts rest) false s

/-- Search for `\bA\b.*\bB\b`: the part `A` with boundaries, then `B` with boundaries
within the same line (`.*` cannot cross a newline; the scan after `A` starts
with `prevW = true` since `A` ends in a word character). -/
def searchSeqWords (altsA altsB : List (List Char)) (s : List Char) : Bool :=
  searchB
    (fun t =>
      altsA.any fun a =>
        match litHere a t with
        | some r =>
            boundaryAfterOk r &&
              searchB (litAltTry altsB) true (r.takeWhile (fun c => !(c = '\n')))
        | none => false)
    false s

/-- Search for `\.(e1|e2|..)\b`: a literal dot, one of the extensions, then a
word boundary (no boundary is required before the dot). -/
def searchDotExt (exts : List (List Char)) (s : List Char) : Bool :=
  searchNoB
    (fun t =>
      match t with
      | c :: r => c = '.' && litAltTry exts r
      | [] => false)
    s

/-! ## Command parsers (backend/zendaya.py) -/

/-- The candidates left by the optional prefix `(?:zendaya,\s*)?` of several
anchored patterns ("zendaya," is 8 characters; the alternatives that follow
never start with whitespace, so maximal munch of `\s*` is complete). -/
def zendayaCands (lt : List Char) : List (List Char) :=
  if (w "zendaya,").isPrefixOf lt then
    [lt, (lt.drop 8).dropWhile isWS]
  else [lt]

inductive Mode
  | voice
  | text
  | both
deriving DecidableEq

/-- Model of `parse_mode_switch`: three anchored exact patterns, each with the optional
"zendaya," prefix, tried in order on `user_text.lower().strip()`. -/
def parseModeSwitch (u : List Char) : Option Mode :=
  let lt := lowerL (stripL u)
  let cs := zendayaCands lt
  if cs.any fun c => c = w "voice only" || c = w "speak only" then some .voice
  else if cs.any fun c => c = w "text only" then some .text
  else if cs.any fun c =>
      c = w "type and speak" || c = w "text and voice" || c = w "both" then
    some .both
  else none

/-- Model of `parse_professional_mode_toggle`: word-boundary searches for
`(enter|start|enable|activate)\s+professional\s+mode` and the corresponding
off-switch, on `user_text.lower().strip()`. -/
def parseProfToggle (u : List Char) : Option Bool :=
  let lt := lowerL (stripL u)
  if searchPhraseAlts [w "enter", w "start", w "enable", w "activate"]
      [w "professional", w "mode"] lt then some true
  else if searchPhraseAlts [w "exit", w "stop", w "disable", w "deactivate"]
      [w "professional", w "mode"] lt then some false
  else none

/-- After `\s+`, a maximal run of at least one ASCII letter ending at a word
boundary (`([a-zA-Z]+)\b`; shorter runs always face a following letter, so
only the maximal run needs checking). -/
def afterLetters : List Char → Bool
  | [] => true
  | c :: rest => if c.isAlpha then afterLetters rest else !isWordChar c

/-- Pattern `([a-zA-Z]+)\b` matches here. -/
def lettersThenBoundary : List Char → Bool
  | [] => false
  | c :: rest => c.isAlpha && afterLetters rest

/-- Model of `parse_name_introduction`: case-insensitive search for
`\b(?:my\s+name\s+is|call\s+me|i'm|i\s+am)\s+([a-zA-Z]+)\b` (modelled on the
lowered text; only whether a name is captured matters for dispatch). -/
def parseNameIntro (u : List Char) : Bool :=
  let lt := lowerL u
  searchB
    (fun t =>
      [[w "my", w "name", w "is"], [w "call", w "me"], [w "i\x27m"],
        [w "i", w "am"]].any fun ph =>
        match phraseHere ph t with
        | some r =>
          match wsMunch1 r with
          | some r2 => lettersThenBoundary r2
          | none => false
        | none => false)
    false lt

/-- The self-inquiry pattern of `handle_user_command`, searched on
`user_text.lower()`. -/
def selfInquiryMatch (u : List Char) : Bool :=
  searchWordAlts
    [w "what are you", w "who are you", w "tell me about yourself",
      w "what is zendaya", w "meaning of zendaya", w "know you",
      w "why do they call you"] (lowerL u)

/-- Pattern `(.+)` can start here: at least one non-newline character follows. -/
def headNonNl : List Char → Bool
  | [] => false
  | c :: _ => !(c = '\n')

/-- The optional tail `(?:\s+to\s+(.+))?$` of the manage-file pattern can
match here. -/
def toClauseOrEnd (s : List Char) : Bool :=
  dollarHere s ||
    wsSplitMatch
      (fun r =>
        match litHere (w "to") r with
        | some r2 => wsSplitMatch dotPlusDollar r2
        | none => false)
      s

/-- Pattern `(.+?)(?:\s+to\s+(.+))?$`: a non-empty run of non-newline characters after
which the optional to-clause (or `$`) matches. -/
def manageBody : List Char → Bool
  | [] => false
  | c :: rest => !(c = '\n') && (toClauseOrEnd rest || manageBody rest)

/-- Model of `parse_tier1_commands`: its eight patterns on `user_text.lower().strip()`,
as one matched-or-not predicate (the dispatch stage is what the dispatcher
cascade selects). -/
def parseTier1 (u : List Char) : Bool :=
  let lt := lowerL (stripL u)
  -- \b(system status|pc performance)\b
  searchWordAlts [w "system status", w "pc performance"] lt ||
  -- \b(read|what's on)\s+my\s+clipboard\b
  searchPhraseAlts [w "read", w "what\x27s on"] [w "my", w "clipboard"] lt ||
  -- re.match: copy\s+(?:this|that)\s+to\s+clipboard
  (match (litHere (w "copy") lt).bind wsMunch1 with
    | some r =>
      (match (litHere (w "this") r <|> litHere (w "that") r).bind wsMunch1 with
        | some r2 =>
          (match (litHere (w "to") r2).bind wsMunch1 with
            | some r3 => (litHere (w "clipboard") r3).isSome
            | none => false)
        | none => false)
    | none => false) ||
  -- re.match: find\s+file\s+(.+)
  (match litHere (w "find") lt with
    | some r =>
        wsSplitMatch
          (fun r2 =>
            match litHere (w "file") r2 with
            | some r3 => wsSplitMatch headNonNl r3
            | none => false)
          r
    | none => false) ||
  -- re.match: read\s+file\s+(.+)
  (match litHere (w "read") lt with
    | some r =>
        wsSplitMatch
          (fun r2 =>
            match litHere (w "file") r2 with
            | some r3 => wsSplitMatch headNonNl r3
            | none => false)
          r
    | none => false) ||
  -- re.match: (copy|move|delete)\s+(.+?)(?:\s+to\s+(.+))?$
  ([w "copy", w "move", w "delete"].any fun k =>
    match litHere k lt with
    | some r => wsSplitMatch manageBody r
    | none => false) ||
  -- \b(check my email)\b
  searchWordAlts [w "check my email"] lt ||
  -- \b(check my calendar)\b
  searchWordAlts [w "check my calendar"] lt

inductive SysCmd
  | openT
  | closeT
  | system (a : List Char)
deriving DecidableEq

/-- One of the keywords, then `\s+(.+)$`, on one of the zendaya-prefix
candidates. -/
def kwRestMatch (kws : List (List Char)) (lt : List Char) : Bool :=
  (zendayaCands lt).any fun c =>
    kws.any fun k =>
      match litHere k c with
      | some r => wsSplitMatch dotPlusDollar r
      | none => false

/-- Pattern `^(?:zendaya,\s*)?action(?:\s+pc|\s+computer)?$` for one action word. -/
def sysActionMatch (a : List Char) (lt : List Char) : Bool :=
  (zendayaCands lt).any fun c =>
    match litHere a c with
    | some r =>
        dollarHere r ||
          wsSplitMatch
            (fun r2 => dollarLit (w "pc") r2 || dollarLit (w "computer") r2) r
    | none => false

/-- Model of `parse_system_control` on `user_text.lower().strip()`: open, then close,
then the four exact dangerous actions. -/
def parseSysControl (u : List Char) : Option SysCmd :=
  let lt := lowerL (stripL u)
  if kwRestMatch [w "open", w "launch", w "start"] lt then some .openT
  else if kwRestMatch [w "close", w "quit", w "kill", w "exit"] lt then
    some .closeT
  else
    match [w "shutdown", w "restart", w "sleep", w "lock"].find?
        (fun a => sysActionMatch a lt) with
    | some a => some (.system a)
    | none => none

/-- Constant `AUTO_SEARCH_KEYWORDS`. -/
def autoSearchKeywords : List (List Char) :=
  [w "latest", w "today", w "breaking", w "news", w "trending", w "score",
    w "price", w "weather", w "exchange rate", w "update", w "who won",
    w "market", w "live", w "forecast", w "definition", w "meaning",
    w "how to", w "what is"]

/-- Model of `should_auto_search`: a plain substring test of every keyword against
`txt.lower()`. -/
def shouldAutoSearch (u : List Char) : Bool :=
  autoSearchKeywords.any fun k => containsSub k (lowerL u)

/-! ## The dispatcher cascade (`handle_user_command`) -/

inductive Intent
  | confirm
  | modeSwitch
  | profToggle
  | nameIntro
  | selfInquiry
  | tier1
  | sysControl
  | chat (searched : Bool)
deriving DecidableEq

/-- Model of `handle_user_command` as an intent classifier: the source's chain of
early-returning matcher stages, in its textual order.  Every non-`None` value
the Python matchers can return is truthy (non-empty strings / dicts /
booleans tested with `is not None`), so each stage fires exactly when its
parser matches, and each utterance selects exactly one stage.  The final
fallthrough composes a generative reply, preceded by a web search (passed as
context) exactly when `should_auto_search` holds. -/
def handleUserCommand (u : List Char) (p : Option Pending) : Intent :=
  if (confirmDangerous u p).1.isSome then .confirm
  else if (parseModeSwitch u).isSome then .modeSwitch
  else if (parseProfToggle u).isSome then .profToggle
  else if parseNameIntro u then .nameIntro
  else if selfInquiryMatch u then .selfInquiry
  else if parseTier1 u then .tier1
  else if (parseSysControl u).isSome then .sysControl
  else .chat (shouldAutoSearch u)

/-- The cascade's matcher predicates, indexed in their evaluation order. -/
def nthMatcher (k : Nat) (u : List Char) (p : Option Pending) : Bool :=
  match k with
  | 0 => (confirmDangerous u p).1.isSome
  | 1 => (parseModeSwitch u).isSome
  | 2 => (parseProfToggle u).isSome
  | 3 => parseNameIntro u
  | 4 => selfInquiryMatch u
  | 5 => parseTier1 u
  | 6 => (parseSysControl u).isSome
  | _ => false

/-- The intent produced by the matcher at each cascade position. -/
def nthIntent (k : Nat) : Intent :=
  match k with
  | 0 => .confirm
  | 1 => .modeSwitch
  | 2 => .profToggle
  | 3 => .nameIntro
  | 4 => .selfInquiry
  | 5 => .tier1
  | 6 => .sysControl
  | _ => .chat false

/-! ## Computable rationals

The heuristic scores of the error-understanding engine are exact decimal
fractions (0.1, 0.15, ...), modelled as rationals.  Mathlib's `Rat`
arithmetic is `@[irreducible]`, so concrete score computations could not be
checked by kernel evaluation; `Q` is an unnormalized fraction type (numerator
and predecessor of the positive denominator) with computable arithmetic and
comparisons, interpreted into `ℚ` by `Q.toRat` for the order-theoretic
theorems. -/

structure Q where
  num : Int
  dpred : Nat
deriving DecidableEq

/-- The (positive) denominator. -/
def Q.den (q : Q) : Int := (q.dpred : Int) + 1

/-- Interpretation into Mathlib's rationals. -/
def Q.toRat (q : Q) : ℚ := (q.num : ℚ) / ((q.dpred : ℚ) + 1)

/-- The fraction n / d (for d ≥ 1). -/
def qOf (n : Int) (d : Nat) : Q := ⟨n, d - 1⟩

/-- A natural number as a fraction. -/
def qNat (n : Nat) : Q := ⟨(n : Int), 0⟩

def qadd (a b : Q) : Q :=
  ⟨a.num * b.den + b.num * a.den, (a.dpred + 1) * (b.dpred + 1) - 1⟩

def qsub (a b : Q) : Q :=
  ⟨a.num * b.den - b.num * a.den, (a.dpred + 1) * (b.dpred + 1) - 1⟩

def qmul (a b : Q) : Q := ⟨a.num * b.num, (a.dpred + 1) * (b.dpred + 1) - 1⟩

def qle (a b : Q) : Bool := decide (a.num * b.den ≤ b.num * a.den)

def qlt (a b : Q) : Bool := decide (a.num * b.den < b.num * a.den)

/-- Python `max(a, b)`: the first argument when equal. -/
def qmax (a b : Q) : Q := if qlt a b then b else a

/-- Python `min(a, b)`: the first argument when equal. -/
def qmin (a b : Q) : Q := if qlt b a then b else a

/-! ## Error understanding (zendaya-backend/ai_core/error_understanding.py) -/

/-- Per-word transcription metadata (`word_details` entries). -/
structure WordDetail where
  word : List Char
  conf : Q
  startT : Q
  endT : Q
deriving DecidableEq

/-- Transcription metadata: the overall confidence key may be absent
(`transcription_data.get("confidence", 1.0)`). -/
structure TranscriptionData where
  confidence? : Option Q
  wordDetails : List WordDetail
deriving DecidableEq

inductive ErrType
  | homophone
  | technicalTerm
  | lowConfidence
deriving DecidableEq

/-- One detected error (`suggested` is empty for low-confidence entries,
which carry no suggestion in the source). -/
structure ErrorRec where
  etype : ErrType
  detected : List Char
  suggested : List Char
  conf : Q
deriving DecidableEq

inductive CtxClue
  | deviceControl
  | fileManagement
  | systemInfo
  | calendarSchedule
  | communication
deriving DecidableEq

inductive IntentKind
  | command
  | question
  | request
  | information
  | general
deriving DecidableEq

inductive ErrKind
  | noError
  | transcriptionQuality
  | speechRecognition
  | domainSpecific
  | general
deriving DecidableEq

/-- Result record of `analyze_input`. -/
structure ErrorContext where
  errorType : ErrKind
  confidence : Q
  suggestedCorrections : List (List Char)
  contextClues : List CtxClue
  userIntent : IntentKind
deriving DecidableEq

/-- The `homophones` table. -/
def homophones : List (List Char × List (List Char)) :=
  [(w "there", [w "their", w "they\x27re"]),
   (w "to", [w "too", w "two"]),
   (w "your", [w "you\x27re"]),
   (w "its", [w "it\x27s"]),
   (w "open", [w "upon"]),
   (w "close", [w "clothes", w "chose"]),
   (w "file", [w "while", w "pile"]),
   (w "system", [w "sister", w "cyst"]),
   (w "control", [w "central", w "patrol"]),
   (w "device", [w "devise", w "the vice"]),
   (w "calendar", [w "calender"]),
   (w "email", [w "e-mail", w "gmail"]),
   (w "volume", [w "column"]),
   (w "temperature", [w "temp", w "temper"]),
   (w "security", [w "secure", w "securely"])]

/-- The `technical_terms` table. -/
def techTerms : List (List Char × List (List Char)) :=
  [(w "api", [w "a p i", w "app", w "happy"]),
   (w "cpu", [w "c p u", w "see you"]),
   (w "gpu", [w "g p u", w "gee you"]),
   (w "ram", [w "r a m", w "ram memory"]),
   (w "ssd", [w "s s d", w "solid state"]),
   (w "wifi", [w "wi-fi", w "wireless", w "wife i"]),
   (w "bluetooth", [w "blue tooth", w "blue two"]),
   (w "ethernet", [w "ether net", w "internet"])]

/-- The `command_variations` table. -/
def commandVariations : List (List Char × List (List Char)) :=
  [(w "open", [w "launch", w "start", w "run", w "execute", w "begin"]),
   (w "close", [w "quit", w "exit", w "stop", w "end", w "kill", w "terminate"]),
   (w "increase", [w "raise", w "up", w "higher", w "more", w "boost"]),
   (w "decrease", [w "lower", w "down", w "less", w "reduce", w "drop"]),
   (w "set", [w "change", w "adjust", w "modify", w "configure"]),
   (w "show", [w "display", w "view", w "see", w "list"]),
   (w "find", [w "search", w "locate", w "look for", w "get"]),
   (w "delete", [w "remove", w "erase", w "clear", w "destroy"])]

/-- Python `str.split()` with no argument: split on whitespace runs, dropping
empty pieces.  The accumulator holds the current word reversed. -/
def splitWSAux (cur : List Char) : List Char → List (List Char)
  | [] => if cur = [] then [] else [cur.reverse]
  | c :: rest =>
      if isWS c then
        if cur = [] then splitWSAux [] rest
        else cur.reverse :: splitWSAux [] rest
      else splitWSAux (c :: cur) rest

def splitWS (s : List Char) : List (List Char) := splitWSAux [] s

/-- Step 1 of `_clean_input`: collapse each whitespace run of the stripped
text into a single space (`re.sub(r'\s+', ' ', text.strip())`). -/
def collapseWSAux (prevWs : Bool) : List Char → List Char
  | [] => []
  | c :: rest =>
      if isWS c then
        if prevWs then collapseWSAux true rest
        else ' ' :: collapseWSAux true rest
      else c :: collapseWSAux false rest

def isPunctCI (c : Char) : Bool := c = '.' || c = '!' || c = '?'

/-- Step 2 of `_clean_input`: drop whitespace runs that directly precede one
of `.!?` (`re.sub(r'\s+([.!?])', r'\1', text)`); pending whitespace is kept
when followed by anything else or by the end of the text. -/
def punctFixAux (pend : List Char) : List Char → List Char
  | [] => pend.reverse
  | c :: rest =>
      if isWS c then punctFixAux (c :: pend) rest
      else if isPunctCI c then c :: punctFixAux [] rest
      else pend.reverse ++ c :: punctFixAux [] rest

/-- Step 3 of `_clean_input`: `re.sub(r'([.!?])\s*([a-zA-Z])', r'\1 \2', .)` —
after a punctuation mark, greedy optional whitespace followed by a letter gets
normalized to a single space; scanning resumes after the letter. -/
def sentenceSpaceAux (pend : Option Char) (wsAcc : List Char) :
    List Char → List Char
  | [] =>
    match pend with
    | some p => p :: wsAcc.reverse
    | none => []
  | c :: rest =>
    match pend with
    | none =>
        if isPunctCI c then sentenceSpaceAux (some c) [] rest
        else c :: sentenceSpaceAux none [] rest
    | some p =>
        if isWS c then sentenceSpaceAux (some p) (c :: wsAcc) rest
        else if c.isAlpha then p :: ' ' :: c :: sentenceSpaceAux none [] rest
        else if isPunctCI c then
          p :: wsAcc.reverse ++ sentenceSpaceAux (some c) [] rest
        else p :: wsAcc.reverse ++ c :: sentenceSpaceAux none [] rest

/-- Model of `_clean_input`. -/
def cleanInput (s : List Char) : List Char :=
  sentenceSpaceAux none [] (punctFixAux [] (collapseWSAux false (stripL s)))

/-- Model of `_detect_errors`: homophone hits (per word of the lowered split, in table
order), then technical-term substring hits (in table order, once per
alternative), then low-confidence transcription words. -/
def detectErrors (text : List Char) (td : Option TranscriptionData) :
    List ErrorRec :=
  let lt := lowerL text
  let wordsL := splitWS lt
  let homErrs := wordsL.flatMap fun word =>
    homophones.filterMap fun e =>
      if word ∈ e.2 then some ⟨.homophone, word, e.1, qOf 7 10⟩ else none
  let techErrs := techTerms.flatMap fun e =>
    e.2.filterMap fun alt =>
      if containsSub alt lt then some ⟨.technicalTerm, alt, e.1, qOf 8 10⟩
      else none
  let lowErrs :=
    match td with
    | some t =>
        t.wordDetails.filterMap fun wd =>
          if qlt wd.conf (qOf 6 10) then some ⟨.lowConfidence, wd.word, [], wd.conf⟩
          else none
    | none => []
  homErrs ++ techErrs ++ lowErrs

/-- The `device_control` patterns. -/
def devControlMatch (lt : List Char) : Bool :=
  searchSeqWords [w "turn", w "switch", w "set", w "adjust", w "control",
      w "manage"] [w "on", w "off", w "up", w "down", w "to"] lt ||
  searchSeqWords [w "open", w "close", w "start", w "stop", w "launch",
      w "quit"] [w "app", w "application", w "program", w "software"] lt ||
  searchWordAlts [w "volume", w "brightness", w "temperature", w "speed",
      w "power"] lt ||
  searchWordAlts [w "lights", w "music", w "tv", w "computer", w "phone",
      w "tablet"] lt

/-- The `file_management` patterns. -/
def fileMgmtMatch (lt : List Char) : Bool :=
  searchWordAlts [w "file", w "folder", w "document", w "picture", w "video",
      w "music"] lt ||
  searchWordAlts [w "copy", w "move", w "delete", w "rename", w "create",
      w "save"] lt ||
  searchWordAlts [w "desktop", w "downloads", w "documents", w "pictures"] lt ||
  searchDotExt [w "txt", w "pdf", w "doc", w "jpg", w "png", w "mp3", w "mp4",
      w "exe"] lt

/-- The `system_info` patterns. -/
def systemInfoMatch (lt : List Char) : Bool :=
  searchSeqWords [w "system", w "computer", w "pc", w "laptop", w "device"]
      [w "status", w "info", w "performance", w "health"] lt ||
  searchWordAlts [w "cpu", w "memory", w "ram", w "disk", w "storage",
      w "battery"] lt ||
  searchWordAlts [w "running", w "slow", w "fast", w "hot", w "cold", w "full",
      w "empty"] lt

/-- The `calendar_schedule` patterns. -/
def calendarMatch (lt : List Char) : Bool :=
  searchWordAlts [w "meeting", w "appointment", w "event", w "schedule",
      w "calendar"] lt ||
  searchWordAlts [w "today", w "tomorrow", w "monday", w "tuesday",
      w "wednesday", w "thursday", w "friday", w "saturday", w "sunday"] lt ||
  searchWordAlts [w "morning", w "afternoon", w "evening", w "night", w "am",
      w "pm"] lt ||
  searchWordAlts [w "remind", w "notification", w "alert"] lt

/-- The `communication` patterns. -/
def communicationMatch (lt : List Char) : Bool :=
  searchWordAlts [w "email", w "message", w "text", w "call", w "contact"] lt ||
  searchWordAlts [w "send", w "receive", w "reply", w "forward", w "delete"]
      lt ||
  searchWordAlts [w "inbox", w "outbox", w "draft", w "spam"] lt

/-- Model of `_extract_context_clues`: one clue per category whose pattern list has a
match, in category order.  The categories are pairwise distinct, so the
source's final `list(set(clues))` only forgets an (unused) order. -/
def extractContextClues (text : List Char) : List CtxClue :=
  let lt := lowerL text
  (if devControlMatch lt then [CtxClue.deviceControl] else []) ++
  (if fileMgmtMatch lt then [CtxClue.fileManagement] else []) ++
  (if systemInfoMatch lt then [CtxClue.systemInfo] else []) ++
  (if calendarMatch lt then [CtxClue.calendarSchedule] else []) ++
  (if communicationMatch lt then [CtxClue.communication] else [])

/-- Pattern `(\w+)\s+` matches here: a maximal word-character run, then whitespace
(a shorter run always faces a word character, which is not whitespace). -/
def afterWordRun : List Char → Bool
  | [] => false
  | c :: rest => if isWordChar c then afterWordRun rest else isWS c

def wordRunThenWs : List Char → Bool
  | [] => false
  | c :: rest => isWordChar c && afterWordRun rest

/-- The first `command` intent pattern,
`^(please\s+)?(can\s+you\s+)?(\w+)\s+`: both optional groups are tried
present and absent. -/
def cmdPat1 (lt : List Char) : Bool :=
  let base := [lt] ++ (((litHere (w "please") lt).bind wsMunch1).toList)
  let cands := base ++ base.filterMap fun c =>
    ((litHere (w "can") c).bind wsMunch1).bind fun r =>
      ((litHere (w "you") r).bind wsMunch1)
  cands.any wordRunThenWs

/-- Pattern `\?$`. -/
def endsQm (s : List Char) : Bool :=
  match s.reverse with
  | '?' :: _ => true
  | '\n' :: '?' :: _ => true
  | _ => false

def boolQ (b : Bool) : Q := if b then qOf 1 1 else qOf 0 1

/-- The per-intent pattern scores of `_classify_intent`: each matching
pattern adds the intent's `confidence_boost`. -/
def intentBaseScores (lt : List Char) : List (IntentKind × Q) :=
  let cmd := qmul (qadd (boolQ (cmdPat1 lt))
    (boolQ (searchWordAlts [w "do", w "make", w "create", w "execute", w "run"]
      lt))) (qOf 2 10)
  let que := qmul (qadd (boolQ (litAltTry [w "what", w "how", w "when",
      w "where", w "why", w "who", w "which"] lt)) (boolQ (endsQm lt)))
    (qOf 1 10)
  let req := qmul (qadd (boolQ (searchPhraseAlts [w "could", w "would",
      w "can", w "will"] [w "you"] lt))
    (boolQ (searchWordAlts [w "please"] lt))) (qOf 15 100)
  let inf := qmul (boolQ (searchSeqWords [w "tell", w "show", w "display",
      w "list", w "find"] [w "me", w "about", w "for"] lt)) (qOf 1 10)
  (if qlt (qOf 0 1) cmd then [(IntentKind.command, cmd)] else []) ++
  (if qlt (qOf 0 1) que then [(IntentKind.question, que)] else []) ++
  (if qlt (qOf 0 1) req then [(IntentKind.request, req)] else []) ++
  (if qlt (qOf 0 1) inf then [(IntentKind.information, inf)] else [])

/-- Update `intent_scores[k] = intent_scores.get(k, 0) + d` on an insertion-ordered
dict: update in place, or append at the end. -/
def updAdd (k : IntentKind) (d : Q) :
    List (IntentKind × Q) → List (IntentKind × Q)
  | [] => [(k, d)]
  | e :: rest =>
      if e.1 = k then (e.1, qadd e.2 d) :: rest else e :: updAdd k d rest

/-- Python `max(items, key=value)`: the first item whose value no later item
strictly exceeds. -/
def maxKeyAux (bestK : IntentKind) (bestV : Q) :
    List (IntentKind × Q) → IntentKind
  | [] => bestK
  | e :: rest => if qlt bestV e.2 then maxKeyAux e.1 e.2 rest
      else maxKeyAux bestK bestV rest

/-- Model of `_classify_intent` (the text is lowered inside the source function). -/
def classifyIntent (text : List Char) (clues : List CtxClue) : IntentKind :=
  let lt := lowerL text
  let scores := intentBaseScores lt
  let scores :=
    if CtxClue.deviceControl ∈ clues then updAdd .command (qOf 3 10) scores
    else scores
  let scores :=
    if CtxClue.systemInfo ∈ clues then updAdd .question (qOf 2 10) scores
    else scores
  match scores with
  | [] => .general
  | e :: rest => maxKeyAux e.1 e.2 rest

/-- Python `text.replace(pat, repl)`: replace every (leftmost,
non-overlapping) occurrence.  Fuel is the length of the text; every step
consumes at least one character when the pattern is non-empty (the tables
only hold non-empty patterns). -/
def replaceAllFuel (pat repl : List Char) : Nat → List Char → List Char
  | 0, s => s
  | _ + 1, [] => []
  | fuel + 1, c :: rest =>
      if pat.isPrefixOf (c :: rest) && !(pat = []) then
        repl ++ replaceAllFuel pat repl fuel ((c :: rest).drop pat.length)
      else c :: replaceAllFuel pat repl fuel rest

def replaceAll (pat repl s : List Char) : List Char :=
  replaceAllFuel pat repl s.length s

/-- Model of `re.sub(r'\b' + pat + r'\b', repl, text, flags=IGNORECASE)` for a
lowercase pattern starting and ending with word characters: replace every
boundary-delimited, case-insensitive occurrence, scanning left to right. -/
def replaceWordCIFuel (pat repl : List Char) :
    Nat → Bool → List Char → List Char
  | 0, _, s => s
  | _ + 1, _, [] => []
  | fuel + 1, prevW, c :: rest =>
      if !prevW && !(pat = []) && lowerL ((c :: rest).take pat.length) = pat &&
          boundaryAfterOk ((c :: rest).drop pat.length) then
        repl ++ replaceWordCIFuel pat repl fuel
          (isWordChar (pat.getLastD ' ')) ((c :: rest).drop pat.length)
      else c :: replaceWordCIFuel pat repl fuel (isWordChar c) rest

def replaceWordCI (pat repl s : List Char) : List Char :=
  replaceWordCIFuel pat repl s.length false s

/-- Model of `_generate_corrections`: nothing without detected errors; otherwise one
replacement per homophone/technical-term error, plus — given a
device-control clue — command-variation rewrites; the result is
deduplicated (`list(set(..))`, whose iteration order is modelled by
`List.dedup`), purged of the original text, and capped at three. -/
def generateCorrections (text : List Char) (errors : List ErrorRec)
    (clues : List CtxClue) : List (List Char) :=
  if errors = [] then []
  else
    let base := errors.filterMap fun e =>
      if e.etype = ErrType.homophone || e.etype = ErrType.technicalTerm then
        some (replaceAll e.detected e.suggested text)
      else none
    let ctx :=
      if CtxClue.deviceControl ∈ clues then
        commandVariations.flatMap fun cv =>
          cv.2.filterMap fun v =>
            if containsSub v (lowerL text) &&
                !containsSub cv.1 (lowerL text) then
              some (replaceWordCI v cv.1 text)
            else none
      else []
    (((base ++ ctx).dedup).erase text).take 3

/-- Model of `_calculate_confidence`: start from 1.0, scale by the transcription
confidence when metadata is present, subtract 0.1 per detected error, add 0.1
for two or more context clues, and clamp to [0.1, 1.0]. -/
def calculateConfidence (td : Option TranscriptionData)
    (errors : List ErrorRec) (clues : List CtxClue) : Q :=
  let base : Q := qOf 1 1
  let base :=
    match td with
    | some t => qmul base (t.confidence?.getD (qOf 1 1))
    | none => base
  let base := qsub base (qmul (qNat errors.length) (qOf 1 10))
  let base := if 2 ≤ clues.length then qadd base (qOf 1 10) else base
  qmax (qOf 1 10) (qmin (qOf 1 1) base)

/-- Model of `_classify_error_type`. -/
def classifyErrorType (errors : List ErrorRec) : ErrKind :=
  if errors = [] then .noError
  else if errors.any fun e => e.etype = ErrType.lowConfidence then
    .transcriptionQuality
  else if errors.any fun e => e.etype = ErrType.homophone then
    .speechRecognition
  else if errors.any fun e => e.etype = ErrType.technicalTerm then
    .domainSpecific
  else .general

/-- Model of `analyze_input` (the source's intermediate locals `cleaned_input`,
`potential_errors` and `context_clues` are written out in full). -/
def analyzeInput (userInput : List Char) (td : Option TranscriptionData) :
    ErrorContext where
  errorType := classifyErrorType (detectErrors (cleanInput userInput) td)
  confidence := calculateConfidence td (detectErrors (cleanInput userInput) td)
    (extractContextClues (cleanInput userInput))
  suggestedCorrections := generateCorrections (cleanInput userInput)
    (detectErrors (cleanInput userInput) td)
    (extractContextClues (cleanInput userInput))
  contextClues := extractContextClues (cleanInput userInput)
  userIntent := classifyIntent (cleanInput userInput)
    (extractContextClues (cleanInput userInput))

/-- Model of `generate_clarification_response` (apostrophes written as \x27). -/
def generateClarification (ec : ErrorContext) : List Char :=
  if qlt (qOf 8 10) ec.confidence then []
  else if ec.errorType = ErrKind.transcriptionQuality then
    w "I\x27m having trouble hearing you clearly. Could you please speak a bit louder or slower?"
  else if ec.errorType = ErrKind.speechRecognition &&
      !(ec.suggestedCorrections = []) then
    w "I think I heard you correctly, but just to be sure - did you mean: \x27"
      ++ ec.suggestedCorrections.headD [] ++ w "\x27?"
  else if ec.errorType = ErrKind.domainSpecific then
    w "I caught most of that, but I want to make sure I understand the technical details correctly. Could you repeat the specific terms?"
  else if qlt ec.confidence (qOf 5 10) then
    w "I want to make sure I help you with exactly what you need. Could you rephrase that for me?"
  else
    match ec.userIntent with
    | .command =>
        w "I understand you want me to do something. Could you tell me specifically what action you\x27d like me to take?"
    | .question =>
        w "I see you\x27re asking about something. Could you clarify what information you\x27re looking for?"
    | .request =>
        w "I\x27d be happy to help with that. Could you provide a bit more detail about what you need?"
    | _ =>
        w "I want to make sure I understand correctly. Could you tell me more about what you need?"

/-! ## The chat endpoint (zendaya-backend/main.py)

The external services consulted after the clarification gate are passed in as
oracle functions; the trace records which of them the request actually
reached.  Speech synthesis (called in every branch when voice is enabled) is
not traced, since no claim constrains it. -/

/-- The result of `offline_intelligence.generate_offline_response`. -/
structure OfflineResult where
  needsOnline : Bool
  confidence : Q
  response : List Char
deriving DecidableEq

structure Oracles where
  offline : List Char → OfflineResult
  rag : List Char → List Char
  agent : List Char → List Char
  gemini : List Char → List Char → List Char → List Char

/-- The fields of `ChatResponse` the claims are about. -/
structure ChatResp where
  text : List Char
  clarificationNeeded : Bool
deriving DecidableEq

/-- Which post-gate services a request reached. -/
structure CallTrace where
  offlineCalled : Bool
  agentCalled : Bool
  geminiCalled : Bool
deriving DecidableEq

inductive HTTPErr
  | badRequest
deriving DecidableEq

/-- The pipeline below the clarification gate: offline intelligence first,
then RAG + agent + Gemini when the offline answer is not confident enough. -/
def chatPipeline (message : List Char) (ec : ErrorContext) (o : Oracles) :
    ChatResp × CallTrace :=
  let processed := ec.suggestedCorrections.headD message
  let off := o.offline processed
  if !off.needsOnline && qlt (qOf 7 10) off.confidence then
    (⟨off.response, false⟩, ⟨true, false, false⟩)
  else
    let ragCtx := o.rag processed
    let agentRes := o.agent processed
    let ai := o.gemini processed ragCtx agentRes
    (⟨ai, false⟩, ⟨true, true, true⟩)

/-- Model of `chat_endpoint`: reject empty messages, analyze the input, return the
clarification (with the flag set) when the confidence is below 0.6 and a
clarification question exists, and otherwise run the pipeline. -/
def chatEndpoint (msgRaw : List Char) (o : Oracles) :
    Except HTTPErr (ChatResp × CallTrace) :=
  let message := stripL msgRaw
  if message = [] then .error .badRequest
  else
    let ec := analyzeInput message none
    if qlt ec.confidence (qOf 6 10) then
      let clar := generateClarification ec
      if clar = [] then .ok (chatPipeline message ec o)
      else .ok (⟨clar, true⟩, ⟨false, false, false⟩)
    else .ok (chatPipeline message ec o)

/-! ## External-call failure handling (backend/zendaya.py)

The wrappers around the web-search, generative-model and cloud-TTS calls each
hold their network call in a try/except and return a string (or fall back to
the system TTS engine); the call's outcome is passed in explicitly. -/

/-- One Tavily result item. -/
structure SearchItem where
  title : List Char
  content : List Char
deriving DecidableEq

/-- A newline is replaced by a space in each snippet
(`.replace("\n", " ")`). -/
def nlToSpace (s : List Char) : List Char :=
  s.map fun c => if c = '\n' then ' ' else c

/-- One formatted line of `tavily_search`'s result list. -/
def searchLine (it : SearchItem) : List Char :=
  w "- " ++ it.title ++ w ": " ++ nlToSpace (it.content.take 220) ++
    w " (source)"

/-- Python `"\n".join(lines)`. -/
def joinNl : List (List Char) → List Char
  | [] => []
  | [l] => l
  | l :: rest => l ++ '\n' :: joinNl rest

/-- Model of `tavily_search(query)`: missing key, caught request/parse failure, empty
result list, or formatted results — always a string. -/
def tavilySearch (haveKey : Bool)
    (outcome : Except (List Char) (List SearchItem)) : List Char :=
  if !haveKey then w "(Search unavailable — missing TAVILY_API_KEY)"
  else
    match outcome with
    | .error e => w "(Search error: " ++ e ++ w ")"
    | .ok items =>
        if items = [] then w "No search results found."
        else joinNl (items.map searchLine)

/-- Model of `gemini_reply`: unconfigured key, caught generation failure, or the
model's text — always a string. -/
def geminiReply (ready : Bool) (outcome : Except (List Char) (List Char)) :
    List Char :=
  if !ready then w "My online brain is offline — add GEMINI_API_KEY to .env."
  else
    match outcome with
    | .error e => w "(AI error: " ++ e ++ w ")"
    | .ok text => text

/-- The outcome of the ElevenLabs HTTP request in `speak_async`. -/
inductive TTSOutcome
  | response (status : Nat)
  | exception (e : List Char)
deriving DecidableEq

/-- A cloud-TTS outcome that is a failure: a raised exception or a non-200
status. -/
def ttsFailed : TTSOutcome → Bool
  | .response status => !(status = 200)
  | .exception _ => true

/-- What `speak_async` ends up doing with the text. -/
inductive SpeakResult
  | playedCloud
  | fellBack
deriving DecidableEq

/-- Model of `speak_async`: cloud playback only on a 200 response with the key and the
playback library present; every other path reaches
`speak_system_fallback`. -/
def speakAsync (elevenReady hasPlaysound : Bool) (out : TTSOutcome) :
    SpeakResult :=
  if !elevenReady || !hasPlaysound then .fellBack
  else
    match out with
    | .response status => if status = 200 then .playedCloud else .fellBack
    | .exception _ => .fellBack

/-! ## Lemmas: the `Q` interpretation into `ℚ` -/

theorem qden_pos (q : Q) : (0 : ℚ) < (q.dpred : ℚ) + 1 := by positivity

theorem dpred_succ_cast (a b : Q) :
    ((((a.dpred + 1) * (b.dpred + 1) - 1 : Nat) : ℚ) + 1) =
      ((a.dpred : ℚ) + 1) * ((b.dpred : ℚ) + 1) := by
  have h : (a.dpred + 1) * (b.dpred + 1) - 1 + 1 = (a.dpred + 1) * (b.dpred + 1) :=
    Nat.sub_add_cancel
      (Nat.one_le_iff_ne_zero.mpr
        (Nat.mul_ne_zero (Nat.succ_ne_zero _) (Nat.succ_ne_zero _)))
  calc (((a.dpred + 1) * (b.dpred + 1) - 1 : Nat) : ℚ) + 1
      = (((a.dpred + 1) * (b.dpred + 1) - 1 + 1 : Nat) : ℚ) := by push_cast; ring
    _ = (((a.dpred + 1) * (b.dpred + 1) : Nat) : ℚ) := by rw [h]
    _ = ((a.dpred : ℚ) + 1) * ((b.dpred : ℚ) + 1) := by push_cast; ring

theorem toRat_qadd (a b : Q) : (qadd a b).toRat = a.toRat + b.toRat := by
  have ha := qden_pos a
  have hb := qden_pos b
  simp only [qadd, Q.toRat, Q.den]
  rw [dpred_succ_cast a b]
  field_simp
  try push_cast
  try ring

theorem toRat_qsub (a b : Q) : (qsub a b).toRat = a.toRat - b.toRat := by
  have ha := qden_pos a
  have hb := qden_pos b
  simp only [qsub, Q.toRat, Q.den]
  rw [dpred_succ_cast a b]
  field_simp
  try push_cast
  try ring

theorem toRat_qmul (a b : Q) : (qmul a b).toRat = a.toRat * b.toRat := by
  have ha := qden_pos a
  have hb := qden_pos b
  simp only [qmul, Q.toRat, Q.den]
  rw [dpred_succ_cast a b]
  field_simp
  try push_cast
  try ring

theorem qle_iff (a b : Q) : qle a b = true ↔ a.toRat ≤ b.toRat := by
  have ha := qden_pos a
  have hb := qden_pos b
  simp only [qle, Q.toRat, Q.den, decide_eq_true_eq]
  rw [div_le_div_iff₀ ha hb]
  constructor
  · intro h; exact_mod_cast h
  · intro h; exact_mod_cast h

theorem qlt_iff (a b : Q) : qlt a b = true ↔ a.toRat < b.toRat := by
  have ha := qden_pos a
  have hb := qden_pos b
  simp only [qlt, Q.toRat, Q.den, decide_eq_true_eq]
  rw [div_lt_div_iff₀ ha hb]
  constructor
  · intro h; exact_mod_cast h
  · intro h; exact_mod_cast h

theorem toRat_qmax (a b : Q) : (qmax a b).toRat = max a.toRat b.toRat := by
  unfold qmax
  by_cases h : qlt a b = true
  · rw [if_pos h, max_eq_right (le_of_lt ((qlt_iff a b).mp h))]
  · rw [if_neg h]
    rw [Bool.not_eq_true] at h
    have h2 : ¬ a.toRat < b.toRat := fun hc =>
      by simp [(qlt_iff a b).mpr hc] at h
    rw [max_eq_left (le_of_not_lt h2)]

theorem toRat_qmin (a b : Q) : (qmin a b).toRat = min a.toRat b.toRat := by
  unfold qmin
  by_cases h : qlt b a = true
  · rw [if_pos h, min_eq_right (le_of_lt ((qlt_iff b a).mp h))]
  · rw [if_neg h]
    rw [Bool.not_eq_true] at h
    have h2 : ¬ b.toRat < a.toRat := fun hc =>
      by simp [(qlt_iff b a).mpr hc] at h
    rw [min_eq_left (le_of_not_lt h2)]

theorem toRat_qOf (n : Int) (d : Nat) (hd : 1 ≤ d) :
    (qOf n d).toRat = (n : ℚ) / (d : ℚ) := by
  simp only [qOf, Q.toRat]
  rw [Nat.cast_sub hd]
  norm_num

theorem toRat_qNat (n : Nat) : (qNat n).toRat = (n : ℚ) := by
  simp [qNat, Q.toRat]

theorem toRat_tenth : (qOf 1 10).toRat = 1/10 := by
  rw [toRat_qOf 1 10 (by norm_num)]; norm_num

theorem toRat_oneQ : (qOf 1 1).toRat = 1 := by
  rw [toRat_qOf 1 1 (by norm_num)]; norm_num

/-! ## Claim C1 (corrected) -/

/-- C1 counterexample: with a file deletion pending in the slot, the
utterance "confirm shutdown" — which names the shutdown action, not the
deletion — nevertheless makes `confirm_dangerous` execute the pending
deletion, so an utterance without a confirmation phrase naming the pending
action does not leave it unexecuted. -/
theorem c1_counterexample :
    (confirmDangerous (w "confirm shutdown")
        (some (.deleteFile (w "notes.txt")))).1 =
      some (DangerExec.deleteFile (w "notes.txt")) ∧
    namesPendingAction (w "confirm shutdown")
      (.deleteFile (w "notes.txt")) = false := by
  constructor
  · decide
  · decide

/-- C1 amended: `confirm_dangerous` executes the pending action exactly when
the utterance contains "confirm" and, for a string-queued action `a`
(shutdown, restart, sleep, lock, or anything else non-empty), also the phrase
"confirm a"; for a pending file deletion any utterance containing "confirm"
executes it, whether or not it names the deletion.  With no pending action
nothing is executed. -/
theorem c1_confirm_exec_condition (u : List Char) (pa : Pending) :
    (confirmDangerous u (some pa)).1.isSome = confirmExecCond u pa ∧
    (confirmDangerous u none).1 = none := by
  refine ⟨?_, rfl⟩
  cases pa with
  | act a =>
    by_cases h1 : a = []
    · simp [confirmDangerous, confirmExecCond, pendingFalsy, h1]
    · by_cases h2 : containsSub (w "confirm") (lowerL (stripL u)) = true
      · by_cases h3 :
            containsSub (w "confirm " ++ a) (lowerL (stripL u)) = true
        · simp [confirmDangerous, confirmExecCond, pendingFalsy, h1, h2, h3]
        · simp [confirmDangerous, confirmExecCond, pendingFalsy, h1, h2, h3]
      · simp [confirmDangerous, confirmExecCond, pendingFalsy, h1, h2]
  | deleteFile path =>
    by_cases h2 : containsSub (w "confirm") (lowerL (stripL u)) = true
    · simp [confirmDangerous, confirmExecCond, pendingFalsy, h2]
    · simp [confirmDangerous, confirmExecCond, pendingFalsy, h2]

/-! ## Claim C9 -/

/-- C9: `confirm_dangerous` either returns `None` and leaves the
pending-confirmation slot untouched, or it executes and has cleared the slot;
and with an empty slot it never returns an execution (so a queued action
cannot be executed twice). -/
theorem c9_confirm_frame_effect (u u2 : List Char) (p : Option Pending) :
    (((confirmDangerous u p).1 = none ∧ (confirmDangerous u p).2 = p) ∨
      ((confirmDangerous u p).1.isSome = true ∧
        (confirmDangerous u p).2 = none)) ∧
    (confirmDangerous u2 none).1 = none ∧
    (confirmDangerous u2 none).2 = none := by
  refine ⟨?_, rfl, rfl⟩
  cases p with
  | none => exact Or.inl ⟨rfl, rfl⟩
  | some pa =>
    cases pa with
    | act a =>
      simp only [confirmDangerous]
      split_ifs with h1 h2 h3
      · exact Or.inl ⟨rfl, rfl⟩
      · exact Or.inl ⟨rfl, rfl⟩
      · exact Or.inr ⟨rfl, rfl⟩
      · exact Or.inl ⟨rfl, rfl⟩
    | deleteFile path =>
      simp only [confirmDangerous]
      split_ifs with h1 h2 h3
      · exact Or.inl ⟨rfl, rfl⟩
      · exact Or.inl ⟨rfl, rfl⟩
      · exact Or.inr ⟨rfl, rfl⟩
      · exact Or.inl ⟨rfl, rfl⟩

/-! ## Claims C3 and C4 -/

/-- The clamp bounds of `_calculate_confidence`, for any inputs. -/
theorem calcConf_bounds (td : Option TranscriptionData)
    (errors : List ErrorRec) (clues : List CtxClue) :
    (1 : ℚ)/10 ≤ (calculateConfidence td errors clues).toRat ∧
      (calculateConfidence td errors clues).toRat ≤ 1 := by
  simp only [calculateConfidence]
  rw [toRat_qmax, toRat_qmin, toRat_tenth, toRat_oneQ]
  exact ⟨le_max_left _ _, max_le (by norm_num) (min_le_left _ _)⟩

/-- Projection fact: `analyze_input` stores the value of `_calculate_confidence` unchanged. -/
theorem analyzeInput_confidence (text : List Char)
    (td : Option TranscriptionData) :
    (analyzeInput text td).confidence =
      calculateConfidence td (detectErrors (cleanInput text) td)
        (extractContextClues (cleanInput text)) := by
  unfold analyzeInput
  with_reducible rfl

/-- Projection fact: `analyze_input` stores the value of `_generate_corrections` unchanged. -/
theorem analyzeInput_corrections (text : List Char)
    (td : Option TranscriptionData) :
    (analyzeInput text td).suggestedCorrections =
      generateCorrections (cleanInput text) (detectErrors (cleanInput text) td)
        (extractContextClues (cleanInput text)) := by
  unfold analyzeInput
  with_reducible rfl

/-- C3: the confidence computed by `_calculate_confidence`, and hence the one
returned in `analyze_input`'s `ErrorContext`, always lies in [0.1, 1.0]. -/
theorem c3_confidence_clamped (td : Option TranscriptionData)
    (errors : List ErrorRec) (clues : List CtxClue) (text : List Char) :
    ((1 : ℚ)/10 ≤ (calculateConfidence td errors clues).toRat ∧
      (calculateConfidence td errors clues).toRat ≤ 1) ∧
    ((1 : ℚ)/10 ≤ (analyzeInput text td).confidence.toRat ∧
      (analyzeInput text td).confidence.toRat ≤ 1) := by
  rw [analyzeInput_confidence]
  exact ⟨calcConf_bounds td errors clues, calcConf_bounds td _ _⟩

/-- C4: holding the transcription metadata and context clues fixed, the
confidence computed by `_calculate_confidence` is monotonically
non-increasing in the number of detected errors. -/
theorem c4_confidence_antitone (td : Option TranscriptionData)
    (clues : List CtxClue) (e1 e2 : List ErrorRec)
    (h : e1.length ≤ e2.length) :
    (calculateConfidence td e2 clues).toRat ≤
      (calculateConfidence td e1 clues).toRat := by
  have hcast : (e1.length : ℚ) ≤ (e2.length : ℚ) := by exact_mod_cast h
  have htenth : (0 : ℚ) ≤ (qOf 1 10).toRat := by rw [toRat_tenth]; norm_num
  cases td with
  | none =>
    simp only [calculateConfidence, toRat_qmax, toRat_qmin]
    refine max_le_max le_rfl (min_le_min le_rfl ?_)
    split_ifs with hc
    · simp only [toRat_qadd, toRat_qsub, toRat_qmul, toRat_qNat]
      nlinarith
    · simp only [toRat_qsub, toRat_qmul, toRat_qNat]
      nlinarith
  | some t =>
    simp only [calculateConfidence, toRat_qmax, toRat_qmin]
    refine max_le_max le_rfl (min_le_min le_rfl ?_)
    split_ifs with hc
    · simp only [toRat_qadd, toRat_qsub, toRat_qmul, toRat_qNat]
      nlinarith
    · simp only [toRat_qsub, toRat_qmul, toRat_qNat]
      nlinarith

/-- A one-element error list for the C4 witness. -/
def oneErr : ErrorRec := ⟨.homophone, w "too", w "to", qOf 7 10⟩

/-- C4 witness: zero errors versus one error. -/
theorem c4_witness :
    ([] : List ErrorRec).length ≤ [oneErr].length ∧
    (calculateConfidence none [oneErr] []).toRat ≤
      (calculateConfidence none [] []).toRat :=
  ⟨by decide, c4_confidence_antitone none [] [] [oneErr] (by decide)⟩

/-! ## Claims C6 and C10 -/

/-- Lemma: `_generate_corrections` returns at most three suggestions. -/
theorem genCorrections_len (text : List Char) (errors : List ErrorRec)
    (clues : List CtxClue) :
    (generateCorrections text errors clues).length ≤ 3 := by
  unfold generateCorrections
  split_ifs
  · simp
  · exact List.length_take_le _ _
  · exact List.length_take_le _ _

/-- C6: `analyze_input` returns at most three suggested corrections. -/
theorem c6_at_most_three_corrections (text : List Char)
    (td : Option TranscriptionData) :
    (analyzeInput text td).suggestedCorrections.length ≤ 3 := by
  rw [analyzeInput_corrections]
  exact genCorrections_len _ _ _

/-- Lemma: `_generate_corrections` never duplicates a suggestion and never suggests
the text it was given. -/
theorem genCorrections_nodup (text : List Char) (errors : List ErrorRec)
    (clues : List CtxClue) :
    (generateCorrections text errors clues).Nodup ∧
      text ∉ generateCorrections text errors clues := by
  unfold generateCorrections
  split_ifs
  · simp
  all_goals constructor
  all_goals first
    | exact List.Nodup.sublist (List.take_sublist _ _)
        ((List.nodup_dedup _).erase text)
    | · intro hmem
        have h2 := List.take_subset _ _ hmem
        rw [(List.nodup_dedup _).mem_erase_iff] at h2
        exact h2.1 rfl

/-- C10: the corrections returned by `analyze_input` contain no duplicates
and never contain the cleaned input text itself. -/
theorem c10_corrections_nontrivial (text : List Char)
    (td : Option TranscriptionData) :
    (analyzeInput text td).suggestedCorrections.Nodup ∧
      cleanInput text ∉ (analyzeInput text td).suggestedCorrections := by
  rw [analyzeInput_corrections]
  exact genCorrections_nodup (cleanInput text) _ _

/-! ## Claim C8 -/

/-- C8: failures of the web-search, generative-model and cloud-TTS calls are
all converted to user-facing results — an error string for the search and
the model, and the system-TTS fallback for speech — and never escape (the
wrappers are total functions of the call's outcome). -/
theorem c8_external_failures_handled :
    (∀ e : List Char, tavilySearch true (Except.error e) =
        w "(Search error: " ++ e ++ w ")") ∧
    (∀ e : List Char, geminiReply true (Except.error e) =
        w "(AI error: " ++ e ++ w ")") ∧
    (∀ (ready hasPS : Bool) (out : TTSOutcome), ttsFailed out = true →
        speakAsync ready hasPS out = .fellBack) := by
  refine ⟨fun e => rfl, fun e => rfl, fun ready hasPS out hfail => ?_⟩
  cases out with
  | exception e =>
    simp only [speakAsync]
    split_ifs <;> rfl
  | response status =>
    simp only [ttsFailed, Bool.not_eq_true', decide_eq_false_iff_not] at hfail
    simp only [speakAsync]
    split_ifs with h1
    · rfl
    · simp [hfail]

/-- C8 witness: a concrete timeout on each call. -/
theorem c8_witness :
    ttsFailed (TTSOutcome.exception (w "timeout")) = true ∧
    speakAsync true true (TTSOutcome.exception (w "timeout")) =
      SpeakResult.fellBack ∧
    tavilySearch true (Except.error (w "timeout")) =
      w "(Search error: timeout)" := by
  refine ⟨by decide, c8_external_failures_handled.2.2 true true _ (by decide),
    ?_⟩
  rw [c8_external_failures_handled.1 (w "timeout")]
  decide

/-! ## Claim C2 -/

/-- C2: `handle_user_command` evaluates its matchers in the fixed order —
dangerous-action confirmation, mode switch, professional-mode toggle, name
introduction, self-inquiry, tier-1 commands, system/app control — and
produces exactly the intent of the first matcher that fires (the function
returns a single intent, so exactly one handler runs). -/
theorem c2_first_match_wins (u : List Char) (p : Option Pending) (k : Nat)
    (hk : k < 7) (hmatch : nthMatcher k u p = true)
    (hprev : ∀ j, j < k → nthMatcher j u p = false) :
    handleUserCommand u p = nthIntent k := by
  interval_cases k
  · simp only [nthMatcher] at hmatch
    simp [handleUserCommand, nthIntent, hmatch]
  · have h0 := hprev 0 (by omega)
    simp only [nthMatcher] at hmatch h0
    simp [handleUserCommand, nthIntent, hmatch, h0]
  · have h0 := hprev 0 (by omega)
    have h1 := hprev 1 (by omega)
    simp only [nthMatcher] at hmatch h0 h1
    simp [handleUserCommand, nthIntent, hmatch, h0, h1]
  · have h0 := hprev 0 (by omega)
    have h1 := hprev 1 (by omega)
    have h2 := hprev 2 (by omega)
    simp only [nthMatcher] at hmatch h0 h1 h2
    simp [handleUserCommand, nthIntent, hmatch, h0, h1, h2]
  · have h0 := hprev 0 (by omega)
    have h1 := hprev 1 (by omega)
    have h2 := hprev 2 (by omega)
    have h3 := hprev 3 (by omega)
    simp only [nthMatcher] at hmatch h0 h1 h2 h3
    simp [handleUserCommand, nthIntent, hmatch, h0, h1, h2, h3]
  · have h0 := hprev 0 (by omega)
    have h1 := hprev 1 (by omega)
    have h2 := hprev 2 (by omega)
    have h3 := hprev 3 (by omega)
    have h4 := hprev 4 (by omega)
    simp only [nthMatcher] at hmatch h0 h1 h2 h3 h4
    simp [handleUserCommand, nthIntent, hmatch, h0, h1, h2, h3, h4]
  · have h0 := hprev 0 (by omega)
    have h1 := hprev 1 (by omega)
    have h2 := hprev 2 (by omega)
    have h3 := hprev 3 (by omega)
    have h4 := hprev 4 (by omega)
    have h5 := hprev 5 (by omega)
    simp only [nthMatcher] at hmatch h0 h1 h2 h3 h4 h5
    simp [handleUserCommand, nthIntent, hmatch, h0, h1, h2, h3, h4, h5]

/-- C2 witness: "text only" fires the mode-switch matcher (position 1), all
earlier matchers are silent, and the produced intent is the mode switch. -/
theorem c2_witness :
    nthMatcher 1 (w "text only") none = true ∧
    handleUserCommand (w "text only") none = Intent.modeSwitch := by
  have h1 : nthMatcher 1 (w "text only") none = true := by decide
  have h0 : ∀ j, j < 1 → nthMatcher j (w "text only") none = false := by decide
  exact ⟨h1, c2_first_match_wins (w "text only") none 1 (by omega) h1 h0⟩

/-! ## Claim C7 -/

/-- C7: an utterance matching none of the cascade's patterns falls through to
the generative reply, preceded by a web search (passed as context) exactly
when the utterance contains one of the fixed auto-search keywords. -/
theorem c7_fallthrough_search (u : List Char) (p : Option Pending)
    (h : ∀ k, k < 7 → nthMatcher k u p = false) :
    handleUserCommand u p = Intent.chat (shouldAutoSearch u) ∧
    (shouldAutoSearch u = true ↔
      ∃ kw ∈ autoSearchKeywords, containsSub kw (lowerL u) = true) := by
  constructor
  · have h0 := h 0 (by omega)
    have h1 := h 1 (by omega)
    have h2 := h 2 (by omega)
    have h3 := h 3 (by omega)
    have h4 := h 4 (by omega)
    have h5 := h 5 (by omega)
    have h6 := h 6 (by omega)
    simp only [nthMatcher] at h0 h1 h2 h3 h4 h5 h6
    simp [handleUserCommand, h0, h1, h2, h3, h4, h5, h6]
  · simp [shouldAutoSearch, List.any_eq_true]

/-- C7 witness: "weather today" matches no command pattern, contains the
auto-search keywords "weather" and "today", and lands in the
search-augmented generative fallthrough. -/
theorem c7_witness :
    (∀ k, k < 7 → nthMatcher k (w "weather today") none = false) ∧
    handleUserCommand (w "weather today") none =
      Intent.chat (shouldAutoSearch (w "weather today")) ∧
    shouldAutoSearch (w "weather today") = true := by
  have hm : ∀ k, k < 7 → nthMatcher k (w "weather today") none = false := by
    decide
  exact ⟨hm, (c7_fallthrough_search (w "weather today") none hm).1, by decide⟩

/-! ## Claim C5 -/

/-- The post-gate pipeline never raises the clarification flag. -/
theorem chatPipeline_no_clarify (m : List Char) (ec : ErrorContext)
    (o : Oracles) : (chatPipeline m ec o).1.clarificationNeeded = false := by
  simp only [chatPipeline]
  split_ifs <;> rfl

/-- Below the 0.6 confidence gate, `generate_clarification_response` always
produces a non-empty question (its only empty return needs confidence above
0.8). -/
theorem genClar_nonempty (ec : ErrorContext)
    (h : qlt ec.confidence (qOf 6 10) = true) :
    generateClarification ec ≠ [] := by
  have hlt := (qlt_iff _ _).mp h
  have h68 : (qOf 6 10).toRat ≤ (qOf 8 10).toRat := by
    rw [toRat_qOf 6 10 (by norm_num), toRat_qOf 8 10 (by norm_num)]
    norm_num
  have h8 : ¬ qlt (qOf 8 10) ec.confidence = true := fun hc =>
    absurd ((qlt_iff _ _).mp hc) (by linarith)
  unfold generateClarification
  rw [if_neg h8]
  split_ifs
  · decide
  · intro hc
    have h2 := List.append_eq_nil.mp hc
    have h3 := List.append_eq_nil.mp h2.1
    exact absurd h3.1 (by decide)
  · decide
  · decide
  · cases ec.userIntent <;> decide

/-- C5: the chat endpoint raises the needs-clarification flag only when the
analyzed confidence is below 0.6 (the test `qlt _ (qOf 6 10)` is the source's
`confidence < 0.6`); and whenever the confidence is below 0.6, the response
is the clarification question and neither the offline store, the agent, nor
the generative model is consulted. -/
theorem c5_clarification_gate (msgRaw : List Char) (o : Oracles)
    (resp : ChatResp) (tr : CallTrace)
    (h : chatEndpoint msgRaw o = Except.ok (resp, tr)) :
    (resp.clarificationNeeded = true →
      qlt (analyzeInput (stripL msgRaw) none).confidence (qOf 6 10) = true) ∧
    (qlt (analyzeInput (stripL msgRaw) none).confidence (qOf 6 10) = true →
      resp.clarificationNeeded = true ∧
      resp.text = generateClarification (analyzeInput (stripL msgRaw) none) ∧
      tr.offlineCalled = false ∧ tr.agentCalled = false ∧
      tr.geminiCalled = false) := by
  simp only [chatEndpoint] at h
  by_cases hemp : stripL msgRaw = []
  · rw [if_pos hemp] at h
    exact absurd h (by simp)
  · rw [if_neg hemp] at h
    by_cases hconf :
        qlt (analyzeInput (stripL msgRaw) none).confidence (qOf 6 10) = true
    · rw [if_pos hconf] at h
      have hne := genClar_nonempty _ hconf
      rw [if_neg hne] at h
      simp only [Except.ok.injEq, Prod.mk.injEq] at h
      obtain ⟨hr, ht⟩ := h
      subst hr
      subst ht
      refine ⟨fun _ => hconf, fun _ => ⟨?_, ?_, ?_, ?_, ?_⟩⟩ <;>
        with_reducible rfl
    · rw [if_neg hconf] at h
      simp only [Except.ok.injEq] at h
      have hfst : (chatPipeline (stripL msgRaw)
          (analyzeInput (stripL msgRaw) none) o).1 = resp := by rw [h]
      constructor
      · intro hflag
        rw [← hfst, chatPipeline_no_clarify] at hflag
        exact absurd hflag (by simp)
      · intro hq
        exact absurd hq hconf

/-- The C5 witness message: five detected lexical errors push the confidence
down to 0.5, below the clarification gate. -/
def c5msg : List Char := w "happy too their upon"

/-- Trivial collaborators for the C5 witness. -/
def c5oracle : Oracles :=
  { offline := fun _ => ⟨true, qOf 0 1, []⟩, rag := fun _ => [],
    agent := fun _ => [], gemini := fun _ _ _ => [] }

/-- The clarification response the endpoint returns for `c5msg`. -/
def c5resp : ChatResp :=
  ⟨generateClarification (analyzeInput (stripL c5msg) none), true⟩

/-- C5 witness: on the concrete low-confidence message the endpoint returns
the clarification with the flag raised and no post-gate service called. -/
theorem c5_witness :
    chatEndpoint c5msg c5oracle =
      Except.ok (c5resp, ⟨false, false, false⟩) ∧
    qlt (analyzeInput (stripL c5msg) none).confidence (qOf 6 10) = true ∧
    c5resp.clarificationNeeded = true ∧
    c5resp.text = generateClarification (analyzeInput (stripL c5msg) none) := by
  have h : chatEndpoint c5msg c5oracle =
      Except.ok (c5resp, ⟨false, false, false⟩) := by rfl
  have hq : qlt (analyzeInput (stripL c5msg) none).confidence (qOf 6 10) =
      true := by decide
  have hc := (c5_clarification_gate c5msg c5oracle c5resp
    ⟨false, false, false⟩ h).2 hq
  exact ⟨h, hq, hc.1, hc.2.1⟩

end Zendaya
